import Mathlib

/-
Verification of the ran-simulator control plane against its specification.

The Go sources are shallowly embedded as executable Lean definitions:
  - pkg/store/ues (UE store: CreateUEs, SetUECount, MoveToCell, Delete, Len)
  - pkg/mobility (updateRrc)
  - pkg/servicemodel/kpm2 (RICSubscription, RICSubscriptionDelete,
    createMeasDefaultData, createRequestedIndMsgFormat1)
  - pkg/servicemodel/mho (sendRicIndication, createIndicationMsgFormat1)
  - pkg/utils/honeycomb (numRings, hexMesh, GenerateHoneycombTopology)

Modelling conventions:
  - Go machine integers become Nat with explicit wrap (percent 2 to a power)
    where overflow can matter.
  - Signal strengths are float64 in Go; no modelled operation performs
    floating-point arithmetic on them (they are only stored, copied and
    compared), so they are embedded as integers.
  - The process-global pseudo random source (math/rand) is embedded as an
    explicit stream of draws, a function from the draw position to Nat,
    threaded through the store state with a position counter.
  - Map iteration order in Go is unspecified; association lists in insertion
    order stand in for maps, which is one admissible iteration order.
  - Fallible paths (index out of range, store misses) return Except/Option.
-/

namespace RanSim

/-! ## UE store data model (pkg/store/ues, store type and model.UE) -/

/-- RRC state of a UE, from the e2sm_mho Rrcstatus enumeration.
The zero value of the Go enumeration is CONNECTED. -/
inductive RrcStatus
  | connected
  | inactive
  | idle
deriving DecidableEq, Repr

/-- Candidate cell entry of a UE (model.UECell): identifier, global cell
identifier and measured strength. Strength is float64 in Go, embedded as Int
as no modelled operation computes with it. -/
structure UECell where
  id : Nat
  ecgi : Nat
  strength : Int
deriving DecidableEq, Repr

/-- User equipment (model.UE). Location coordinates are float64 in Go and are
only ever written as the constant 0 by the modelled operations, so they are
embedded as integers as well. -/
structure UE where
  imsi : Nat
  ueType : String
  lat : Int
  lng : Int
  heading : Nat
  cell : UECell
  crnti : Nat
  cells : List UECell
  isAdmitted : Bool
  rrcState : RrcStatus
deriving DecidableEq, Repr

/-- Store event type (pkg/store/event). -/
inductive EventType
  | created
  | updated
  | deleted
  | none
deriving DecidableEq, Repr

/-- Store event: key, value and type. -/
structure Event where
  key : Nat
  value : UE
  eventType : EventType
deriving DecidableEq, Repr

/-- Store error taxonomy (onos-lib-go errors used by the store). -/
inductive StoreError
  | notFound
deriving DecidableEq, Repr

/-- UE store state: the UE map (association list in insertion order), the
modelled random stream with its position, and the source of random cells
standing in for cellStore.GetRandomCell (whose code is outside the embedded
sources). -/
structure UEStore where
  ues : List UE
  rand : Nat → Nat
  cellSource : Nat → Nat
  pos : Nat

/-- Lookup in the UE map by IMSI. -/
def lookupUE (ues : List UE) (imsi : Nat) : Option UE :=
  ues.find? (fun u => u.imsi = imsi)

/-- Map write s.ues[ue.IMSI] = ue: replaces the entry when the key is present
(the single-retry path can still collide and then overwrites), appends it
otherwise. -/
def putUE (ues : List UE) (ue : UE) : List UE :=
  if (lookupUE ues ue.imsi).isSome then
    ues.map (fun u => if u.imsi = ue.imsi then ue else u)
  else
    ues ++ [ue]

/-- Bounds of the IMSI range (pkg/store/ues consts). -/
def minIMSI : Nat := 1000000

/-- Upper constant of the IMSI range (pkg/store/ues consts). -/
def maxIMSI : Nat := 9999999

/-- One IMSI draw: types.IMSI(rand.Int63n(maxIMSI-minIMSI) + minIMSI).
rand.Int63n(n) is uniform on [0, n); the raw draw d is reduced mod the bound
so that the function is total in the draw. -/
def genIMSI (d : Nat) : Nat :=
  d % (maxIMSI - minIMSI) + minIMSI

/-- One iteration of the CreateUEs loop: draw an IMSI, on a duplicate redraw
exactly once (the FIXME single-shot retry in the source), pick a random cell,
build the UE and write it into the map. Returns the new store, whether the
final write overwrote an existing entry, and the UE written. -/
def createOneUE (st : UEStore) (i : Nat) : UEStore × Bool × UE :=
  let imsi1 := genIMSI (st.rand st.pos)
  let st1 : UEStore := { st with pos := st.pos + 1 }
  let step : Nat × UEStore :=
    if (lookupUE st1.ues imsi1).isSome then
      (genIMSI (st1.rand st1.pos), { st1 with pos := st1.pos + 1 })
    else
      (imsi1, st1)
  let imsi := step.1
  let st2 := step.2
  let ecgi := st2.cellSource st2.pos
  let strength : Int := st2.rand st2.pos
  let st3 : UEStore := { st2 with pos := st2.pos + 1 }
  let ue : UE :=
    { imsi := imsi
      ueType := "phone"
      lat := 0
      lng := 0
      heading := 0
      cell := { id := ecgi, ecgi := ecgi, strength := strength }
      crnti := 90125 + i
      cells := []
      isAdmitted := false
      rrcState := RrcStatus.connected }
  let overwrote := (lookupUE st3.ues imsi).isSome
  ({ st3 with ues := putUE st3.ues ue }, overwrote, ue)

/-- CreateUEs loop from index start for count iterations. The second
component counts the iterations whose final write overwrote an existing
entry (effective IMSI collisions after the single retry). -/
def createUEsFrom (st : UEStore) (start count : Nat) : UEStore × Nat :=
  match count with
  | 0 => (st, 0)
  | c + 1 =>
      let r1 := createOneUE st start
      let r2 := createUEsFrom r1.1 (start + 1) c
      (r2.1, (if r1.2.1 then 1 else 0) + r2.2)

/-- CreateUEs(count) (pkg/store/ues). -/
def createUEs (st : UEStore) (count : Nat) : UEStore × Nat :=
  createUEsFrom st 0 count

/-- Len() of the UE store. -/
def uesLen (st : UEStore) : Nat :=
  st.ues.length

/-- removeSomeUEs(count): deletes count entries in map iteration order,
modelled as dropping the first count entries of the association list (the
Delete events are not needed by any claim and are omitted here). -/
def removeSomeUEs (st : UEStore) (count : Nat) : UEStore :=
  { st with ues := st.ues.drop count }

/-- SetUECount: delta = len - count; create the deficit or remove the excess.
The collision counter of the create path is passed through (0 when nothing
was created). -/
def setUECount (st : UEStore) (count : Nat) : UEStore × Nat :=
  let delta : Int := (uesLen st : Int) - (count : Int)
  if delta < 0 then
    createUEs st (count - uesLen st)
  else if delta > 0 then
    (removeSomeUEs st (uesLen st - count), 0)
  else
    (st, 0)

/-- MoveToCell(imsi, ecgi, strength): update only the serving-cell ECGI and
strength of the given UE and emit one Updated event carrying the updated UE;
NotFound and no mutation when the IMSI is absent. -/
def moveToCell (ues : List UE) (imsi ecgi : Nat) (strength : Int) :
    List UE × List Event × Option StoreError :=
  match lookupUE ues imsi with
  | some ue =>
      let ue2 : UE := { ue with cell := { ue.cell with ecgi := ecgi, strength := strength } }
      let ues2 := ues.map (fun u => if u.imsi = imsi then
          { u with cell := { u.cell with ecgi := ecgi, strength := strength } } else u)
      (ues2, [{ key := ue2.imsi, value := ue2, eventType := EventType.updated }], none)
  | none => (ues, [], some StoreError.notFound)

/-! ## Mobility driver RRC update (pkg/mobility, updateRrc) -/

/-- Store write performed through the UE pointer held by the store map when
updateRrc mutates ue.RrcState. -/
def updateStoredUE (ues : List UE) (imsi : Nat) (ue2 : UE) : List UE :=
  ues.map (fun u => if u.imsi = imsi then ue2 else u)

/-- updateRrc(imsi, probabilityOfRrcStateChange): the random comparison
rand.Float64() < probability is embedded as the boolean flip. On a flip the
UE is fetched; IDLE flips to CONNECTED, CONNECTED flips to IDLE, any other
state is logged and left unchanged, and an applied flip publishes the UE
snapshot on RrcUpdateChan (second component). -/
def updateRrc (ues : List UE) (imsi : Nat) (flip : Bool) :
    List UE × Option UE :=
  if flip then
    match lookupUE ues imsi with
    | none => (ues, none)
    | some ue =>
        match ue.rrcState with
        | RrcStatus.idle =>
            let ue2 : UE := { ue with rrcState := RrcStatus.connected }
            (updateStoredUE ues imsi ue2, some ue2)
        | RrcStatus.connected =>
            let ue2 : UE := { ue with rrcState := RrcStatus.idle }
            (updateStoredUE ues imsi ue2, some ue2)
        | RrcStatus.inactive => (ues, none)
  else
    (ues, none)

/-! ## KPM subscription engine (pkg/servicemodel/kpm2, RICSubscription and
RICSubscriptionDelete) -/

/-- RIC action type from the e2ap RicactionType enumeration. -/
inductive RicActionType
  | report
  | insert
  | policy
deriving DecidableEq, Repr

/-- One entry of the RicActionToBeSetup list: action ID and type. -/
structure RicAction where
  id : Int
  actionType : RicActionType
deriving DecidableEq, Repr

/-- Cause recorded for a not-admitted action. -/
inductive CauseRic
  | ricActionNotSupported
deriving DecidableEq, Repr

/-- Body of the action classification loop of RICSubscription: a REPORT
action is appended to the accepted list; an INSERT or POLICY action is
recorded as not admitted with cause RIC_ACTION_NOT_SUPPORTED. The Go
not-admitted map keyed by action ID is embedded as an association list in
iteration order. -/
def classifyStep (acc : List Int × List (Int × CauseRic)) (action : RicAction) :
    List Int × List (Int × CauseRic) :=
  let acc1 :=
    if action.actionType = RicActionType.report then
      (acc.1 ++ [action.id], acc.2)
    else acc
  if action.actionType = RicActionType.insert ∨
      action.actionType = RicActionType.policy then
    (acc1.1, acc1.2 ++ [(action.id, CauseRic.ricActionNotSupported)])
  else acc1

/-- Action classification loop of RICSubscription over the RicActionToBeSetup
list. -/
def classifyActions (actions : List RicAction) : List Int × List (Int × CauseRic) :=
  actions.foldl classifyStep ([], [])

/-- Outcome of a RICSubscription call: a subscription response, a
RicSubscriptionFailure PDU, or a transport error. -/
inductive SubOutcome
  | response (accepted : List Int) (notAdmitted : List (Int × CauseRic)) (reportPeriodMs : Int)
  | failure (accepted : List Int) (notAdmitted : List (Int × CauseRic))
  | transportError
deriving DecidableEq, Repr

/-- RICSubscription (kpm2): classify the actions; with zero accepted actions
build a subscription failure; a missing or malformed report period also
yields a failure; otherwise a response is produced (the periodic emitter it
spawns is not part of this claim surface). -/
def ricSubscription (actions : List RicAction) (reportPeriod : Except Unit Int) :
    SubOutcome :=
  let acc := classifyActions actions
  if acc.1 = [] then
    SubOutcome.failure acc.1 acc.2
  else
    match reportPeriod with
    | Except.error _ => SubOutcome.failure acc.1 acc.2
    | Except.ok p => SubOutcome.response acc.1 acc.2 p

/-- Subscription key triple (pkg/store/subscriptions NewID argument order:
ricInstanceID, requesterID, ranFuncID). -/
structure SubID where
  ricInstanceID : Int
  reqID : Int
  ranFuncID : Int
deriving DecidableEq, Repr

/-- Registered subscription: its key and whether its periodic ticker is
running. -/
structure Subscription where
  id : SubID
  tickerRunning : Bool
deriving DecidableEq, Repr

/-- Subscription store Get by key. -/
def subsGet (store : List Subscription) (id : SubID) : Option Subscription :=
  store.find? (fun s => s.id = id)

/-- Outcome of a RICSubscriptionDelete call: a delete response PDU, a delete
failure PDU, or a plain returned error (nil, nil, err in Go). -/
inductive DeleteOutcome
  | response (id : SubID)
  | failure (id : SubID)
  | transportError
deriving DecidableEq, Repr

/-- RICSubscriptionDelete (kpm2): look the subscription up under the triple
key; on a miss the Get error is returned directly (no failure PDU); on a hit
the delete response is built and the ticker stopped. The subscription is not
removed from the store. -/
def ricSubscriptionDelete (store : List Subscription)
    (reqID ranFuncID ricInstanceID : Int) : List Subscription × DeleteOutcome :=
  let subID : SubID := { ricInstanceID := ricInstanceID, reqID := reqID, ranFuncID := ranFuncID }
  match subsGet store subID with
  | none => (store, DeleteOutcome.transportError)
  | some _ =>
      (store.map (fun s => if s.id = subID then { s with tickerRunning := false } else s),
       DeleteOutcome.response subID)

/-! ## KPM v2 indication builders (pkg/servicemodel/kpm2) -/

/-- Modelled from the spec: the measurement type name constants RRCConnMax
and RRCConnAvg of the kpm2 package are declared outside the embedded
sources; the spec names the supported measurement types RRC.Conn.Max and
RRC.Conn.Avg. -/
def RRCConnMax : String := "RRC.Conn.Max"

/-- Modelled from the spec: see RRCConnMax. -/
def RRCConnAvg : String := "RRC.Conn.Avg"

/-- One measurement record item of a KPM v2 measurement record. -/
inductive MeasRecordItem
  | integer (value : Int)
  | noValue
deriving DecidableEq, Repr

/-- Switch on measType.measTypeName shared by createMeasDefaultData and
createRequestedIndMsgFormat1: RRC.Conn.Max and RRC.Conn.Avg are reported as
the current UE count in the store, the default arm emits a NoValue record. -/
def measRecordFor (ueLen : Nat) (name : String) : MeasRecordItem :=
  if name = RRCConnMax then MeasRecordItem.integer ueLen
  else if name = RRCConnAvg then MeasRecordItem.integer ueLen
  else MeasRecordItem.noValue

/-- createMeasDefaultData: one record per entry of the measTypes table, in
table order. The table itself lives outside the embedded sources, so the
functions are parametric in the list of its type names. -/
def createMeasDefaultData (measTypes : List String) (ueLen : Nat) :
    List MeasRecordItem :=
  measTypes.foldl (fun rec name => rec ++ [measRecordFor ueLen name]) []

/-- Record construction loop of createRequestedIndMsgFormat1: for each
declared measurement info entry of the action definition, scan the measTypes
table and emit a record for every table entry whose name matches; a declared
name absent from the table emits nothing. -/
def createRequestedMeasRecord (measTypes : List String) (ueLen : Nat)
    (declared : List String) : List MeasRecordItem :=
  declared.foldl
    (fun rec dName =>
      measTypes.foldl
        (fun rec2 tName =>
          if tName = dName then rec2 ++ [measRecordFor ueLen tName] else rec2)
        rec)
    []

/-- Format-1 action definition content used by the builder: cell object ID,
declared measurement names, subscription ID and granularity. -/
structure ActionDefFormat1 where
  cellObjID : String
  measNames : List String
  subID : Int
  granularity : Int
deriving DecidableEq, Repr

/-- KPM v2 indication message format 1 (the fields the builder sets; the
ASN.1 encoding by the codec plugin is outside the embedded sources). -/
structure KpmIndicationMsgFormat1 where
  cellObjID : String
  granularity : Int
  subscriptionID : Int
  measData : List MeasRecordItem
  measInfoList : List String
deriving DecidableEq, Repr

/-- createDefaultIndicationMsgFormat1: all supported stats, hard coded
granularity 21 and subscription ID 123456, cell object ID the decimal ECGI. -/
def createDefaultIndMsgFormat1 (measTypes : List String) (ueLen : Nat)
    (cellECGI : Nat) : KpmIndicationMsgFormat1 :=
  { cellObjID := toString cellECGI
    granularity := 21
    subscriptionID := 123456
    measData := createMeasDefaultData measTypes ueLen
    measInfoList := measTypes }

/-- createRequestedIndMsgFormat1: the first format-1 action definition whose
cell object ID equals the decimal ECGI determines the message; its
measurement info list is copied into the message while the records are built
by the matching scan; no matching action definition produces no message. -/
def createRequestedIndMsgFormat1 (measTypes : List String) (ueLen : Nat)
    (cellECGI : Nat) : List ActionDefFormat1 → Option KpmIndicationMsgFormat1
  | [] => none
  | a :: rest =>
      if a.cellObjID = toString cellECGI then
        some
          { cellObjID := toString cellECGI
            granularity := a.granularity
            subscriptionID := a.subID
            measData := createRequestedMeasRecord measTypes ueLen a.measNames
            measInfoList := a.measNames }
      else createRequestedIndMsgFormat1 measTypes ueLen cellECGI rest

/-- createIndicationMessageFormat1: with no action definitions the default
message reports all stats, otherwise the requested message is built. -/
def createIndicationMessageFormat1 (measTypes : List String) (ueLen : Nat)
    (cellECGI : Nat) (actionDefs : List ActionDefFormat1) :
    Option KpmIndicationMsgFormat1 :=
  if actionDefs = [] then
    some (createDefaultIndMsgFormat1 measTypes ueLen cellECGI)
  else
    createRequestedIndMsgFormat1 measTypes ueLen cellECGI actionDefs

/-! ## MHO indication builder (pkg/servicemodel/mho) -/

/-- GetNCI: the 36-bit NR cell identity carried in an NCGI. -/
def getNCI (ncgi : Nat) : Nat :=
  ncgi % 2 ^ 36

/-- One E2SmMhoMeasurementReportItem: NR cell identity and RSRP. The int32
conversion of the stored strength is the identity on the embedded integer
strengths. -/
structure MeasReportItem where
  nci : Nat
  rsrp : Int
deriving DecidableEq, Repr

/-- MHO indication message format 1: UE identifier (decimal IMSI string) and
the measurement report list. -/
structure MhoMsgFormat1 where
  ueID : String
  measReport : List MeasReportItem
deriving DecidableEq, Repr

/-- createIndicationMsgFormat1 (mho): with an empty candidate list no message
is produced; otherwise the serving cell comes first, with RSRP the stored
serving strength, followed by the candidate list in stored (ranked) order. -/
def mhoCreateIndicationMsgFormat1 (ue : UE) : Option MhoMsgFormat1 :=
  if ue.cells = [] then none
  else
    some
      { ueID := toString ue.imsi
        measReport :=
          { nci := getNCI ue.cell.ecgi, rsrp := ue.cell.strength } ::
            ue.cells.map (fun c => { nci := getNCI c.ecgi, rsrp := c.strength }) }

/-- ListUEs(ctx, ecgi): the UEs whose serving cell is the given one. -/
def listUEs (ues : List UE) (ecgi : Nat) : List UE :=
  ues.filter (fun u => u.cell.ecgi = ecgi)

/-- One emitted MHO format-1 indication: the reporting cell, the IMSI of the
UE the PDU was built for (bookkeeping identifying the emission) and the
message. -/
structure MhoEmission where
  ncgi : Nat
  imsi : Nat
  msg : MhoMsgFormat1
deriving DecidableEq, Repr

/-- Body of the inner UE loop of sendRicIndication (mho): an IDLE UE is
skipped; a UE whose builder yields no message (empty candidate list) is
skipped as well and the loop continues; otherwise the built message is
emitted. -/
def mhoEmitUE (ncgi : Nat) (out2 : List MhoEmission) (ue : UE) :
    List MhoEmission :=
  if ue.rrcState = RrcStatus.idle then out2
  else
    match mhoCreateIndicationMsgFormat1 ue with
    | none => out2
    | some msg => out2 ++ [{ ncgi := ncgi, imsi := ue.imsi, msg := msg }]

/-- Body of the outer cell loop of sendRicIndication (mho): walk the UEs
served by the cell. -/
def mhoEmitCell (ues : List UE) (out : List MhoEmission) (ncgi : Nat) :
    List MhoEmission :=
  (listUEs ues ncgi).foldl (mhoEmitUE ncgi) out

/-- sendRicIndication (mho): for every cell of the node and every UE served
by that cell, skip IDLE UEs, build the format-1 message and emit it. -/
def mhoSendRicIndication (nodeCells : List Nat) (ues : List UE) :
    List MhoEmission :=
  nodeCells.foldl (mhoEmitCell ues) []

/-! ## Honeycomb topology generator (pkg/utils/honeycomb) -/

/-- numRings: bucketed ring count for the requested number of towers, with
the fmt.Errorf message for more than 469. -/
def numRings (numTowers : Nat) : Except String Nat :=
  if numTowers ≤ 7 then Except.ok 1
  else if numTowers ≤ 19 then Except.ok 2
  else if numTowers ≤ 37 then Except.ok 3
  else if numTowers ≤ 61 then Except.ok 4
  else if numTowers ≤ 91 then Except.ok 5
  else if numTowers ≤ 127 then Except.ok 6
  else if numTowers ≤ 169 then Except.ok 7
  else if numTowers ≤ 217 then Except.ok 8
  else if numTowers ≤ 271 then Except.ok 9
  else if numTowers ≤ 331 then Except.ok 10
  else if numTowers ≤ 469 then Except.ok 11
  else Except.error ">469 not handled"

/-- Number of axial hex coordinates returned by hexgrid.HexRange(origin, r):
the centered hexagonal number 3r^2 + 3r + 1 (the spec states this count). -/
def hexRangeCount (r : Nat) : Nat :=
  3 * r * r + 3 * r + 1

/-- hexMesh: rings, _ := numRings(numTowers) discards the error, leaving
rings = 0 on the error path. The point coordinates are floating-point and no
claim depends on them, so only the list of point slots is embedded; its
length is what the tower loop indexes into. -/
def hexMesh (numTowers : Nat) : List Unit :=
  List.replicate (hexRangeCount ((numRings numTowers).toOption.getD 0)) ()

/-- ToECI of onos-api: EnbID shifted left by 8 bits or-ed with the cell ID. -/
def toECI (enbID cellID : Nat) : Nat :=
  enbID <<< 8 ||| cellID

/-- ToECGI of onos-api: PLMN ID shifted left by 28 bits or-ed with the ECI. -/
def toECGI (plmnID eci : Nat) : Nat :=
  plmnID <<< 28 ||| eci

/-- Generated cell: global identifier, sector azimuth and arc (the sector
center is floating-point geometry and not needed by any claim), and the
neighbor list filled in by the second phase. -/
structure HexCell where
  ecgi : Nat
  azimuth : Nat
  arc : Nat
  neighbors : List Nat
deriving DecidableEq, Repr

/-- Alternate-tower azimuth offset: 30 degrees times (t mod 2) when
sectorsPerTower is 6, otherwise 0. -/
def azOffset (sectorsPerTower t : Nat) : Nat :=
  if sectorsPerTower = 6 then t % 2 * 30 else 0

/-- Cells of tower t in the inner sector loop: enbID enbStart + t + 1 as a
uint32 (enbStart + 1 fixed in singleNode mode), cell ID s + 1 (t + 1 in the
singleNode single-sector case), azimuth 360 s / sectorsPerTower plus the
offset in Go uint arithmetic for s > 0, arc 360 / sectorsPerTower. -/
def towerCells (plmnID enbStart sectorsPerTower : Nat) (singleNode : Bool)
    (t : Nat) : List HexCell :=
  (List.range sectorsPerTower).map fun s =>
    let enbID :=
      if singleNode then (enbStart + 1) % 2 ^ 32
      else (enbStart + (t + 1)) % 2 ^ 32
    let cellID := if singleNode ∧ sectorsPerTower = 1 then t + 1 else s + 1
    let az :=
      if s = 0 then azOffset sectorsPerTower t
      else 360 * s / sectorsPerTower + azOffset sectorsPerTower t
    { ecgi := toECGI plmnID (toECI enbID cellID)
      azimuth := az
      arc := 360 / sectorsPerTower
      neighbors := [] }

/-- Failure modes of the generator run. -/
inductive GenError
  | indexOutOfRange
deriving DecidableEq, Repr

/-- Tower loop of GenerateHoneycombTopology: points[t] must exist for every
tower index; in Go an out-of-range index panics, embedded as an error. -/
def generateCellsRaw (numTowers sectorsPerTower plmnID enbStart : Nat)
    (singleNode : Bool) : Except GenError (List HexCell) := do
  let cellLists ← (List.range numTowers).mapM fun t =>
    match (hexMesh numTowers)[t]? with
    | none => Except.error GenError.indexOutOfRange
    | some _ => Except.ok (towerCells plmnID enbStart sectorsPerTower singleNode t)
  pure cellLists.flatten

/-- Neighbor phase of GenerateHoneycombTopology: for every cell, walk the
cell map and append every other cell with a distinct ECGI accepted by
isNeighbor while the neighbor list is still shorter than maxNeighbors.
isNeighbor is floating-point Haversine geometry on the sector centers and
reach points; every claim about this phase holds for an arbitrary predicate,
so it is a parameter. -/
def addNbrStep (isNbr : HexCell → HexCell → Bool) (maxNeighbors : Int)
    (cell : HexCell) (acc : List Nat) (other : HexCell) : List Nat :=
  if cell.ecgi ≠ other.ecgi ∧ isNbr cell other ∧
      (acc.length : Int) < maxNeighbors then
    acc ++ [other.ecgi]
  else acc

/-- Per-cell walk of the neighbor phase over the cell inventory. -/
def addNeighbors (isNbr : HexCell → HexCell → Bool) (maxNeighbors : Int)
    (cells : List HexCell) : List HexCell :=
  cells.map fun cell =>
    { cell with
        neighbors := cells.foldl (addNbrStep isNbr maxNeighbors cell) cell.neighbors }

/-- GenerateHoneycombTopology, restricted to the cell inventory it produces
(controllers, service models and the node map are not the subject of any
claim): build the raw cells tower by tower, then fill in the neighbor
lists. -/
def generateHoneycombTopology (numTowers sectorsPerTower plmnID enbStart : Nat)
    (maxNeighbors : Int) (isNbr : HexCell → HexCell → Bool) (singleNode : Bool) :
    Except GenError (List HexCell) := do
  let raw ← generateCellsRaw numTowers sectorsPerTower plmnID enbStart singleNode
  pure (addNeighbors isNbr maxNeighbors raw)

/-! ## Theorems -/

/-- C1: the spec claims that numTowers = 469 succeeds and that any larger
count fails with an Invalid error. The code disagrees with itself: numRings
accepts 469 returning 11 rings, yet 11 rings yield only 3r^2 + 3r + 1 = 397
hex points, so the tower loop runs off the end of the point slice (a Go
panic, embedded as indexOutOfRange); and for 470 the numRings error is
discarded by hexMesh, which then yields a single point and the loop again
indexes out of range instead of returning the Invalid error. -/
theorem honeycomb_numTowers_bucket_bug :
    numRings 469 = Except.ok 11 ∧
    (hexMesh 469).length = 397 ∧
    generateHoneycombTopology 469 1 314628 0 6 (fun _ _ => true) false
      = Except.error GenError.indexOutOfRange ∧
    numRings 470 = Except.error ">469 not handled" ∧
    generateHoneycombTopology 470 1 314628 0 6 (fun _ _ => true) false
      = Except.error GenError.indexOutOfRange ∧
    (generateHoneycombTopology 397 1 314628 0 6 (fun _ _ => true) false).isOk
      = true := by
  set_option maxRecDepth 100000 in
  exact ⟨rfl, rfl, rfl, rfl, rfl, rfl⟩

/-- Subscription key used by the concrete C2 scenarios. -/
def subIDW : SubID :=
  { ricInstanceID := 0, reqID := 0, ranFuncID := 0 }

/-- Registered subscription used by the concrete C2 scenarios. -/
def subW : Subscription :=
  { id := subIDW, tickerRunning := true }

/-- C2 counterexample: after a successful RICSubscriptionDelete the
subscription is still found in the store under the same triple (only its
ticker flag changed), so a subsequent delete of the same triple succeeds
again rather than finding nothing; and for an unknown subscription the
handler returns the Get error directly instead of a failure PDU. -/
theorem ricSubscriptionDelete_keeps_subscription :
    (ricSubscriptionDelete [subW] 0 0 0).2 = DeleteOutcome.response subIDW ∧
    subsGet (ricSubscriptionDelete [subW] 0 0 0).1 subIDW
      = some { id := subIDW, tickerRunning := false } ∧
    (ricSubscriptionDelete (ricSubscriptionDelete [subW] 0 0 0).1 0 0 0).2
      = DeleteOutcome.response subIDW ∧
    (ricSubscriptionDelete ([] : List Subscription) 0 0 0).2
      = DeleteOutcome.transportError := by
  refine ⟨by decide, by decide, by decide, by decide⟩

/-- C2 as amended: on RICSubscriptionDelete of a known subscription the KPM
engine stops the ticker and responds with a delete response, but the
subscription stays in the store (a later delete of the same triple finds it
again); for an unknown subscription it returns the store NotFound error and
produces no failure PDU. -/
theorem ricSubscriptionDelete_spec (store : List Subscription)
    (reqID ranFuncID ricInstanceID : Int) :
    (subsGet store { ricInstanceID := ricInstanceID, reqID := reqID, ranFuncID := ranFuncID } = none →
      ricSubscriptionDelete store reqID ranFuncID ricInstanceID
        = (store, DeleteOutcome.transportError)) ∧
    (∀ sub, subsGet store { ricInstanceID := ricInstanceID, reqID := reqID, ranFuncID := ranFuncID }
        = some sub →
      (ricSubscriptionDelete store reqID ranFuncID ricInstanceID).2
          = DeleteOutcome.response { ricInstanceID := ricInstanceID, reqID := reqID, ranFuncID := ranFuncID } ∧
      subsGet (ricSubscriptionDelete store reqID ranFuncID ricInstanceID).1
          { ricInstanceID := ricInstanceID, reqID := reqID, ranFuncID := ranFuncID }
        = some { sub with tickerRunning := false }) := by
  set subID : SubID := { ricInstanceID := ricInstanceID, reqID := reqID, ranFuncID := ranFuncID } with hsub
  constructor
  · intro hnone
    simp only [ricSubscriptionDelete, ← hsub, hnone]
  · intro sub hsome
    have hid : sub.id = subID := by
      have := List.find?_some hsome
      simpa using this
    constructor
    · simp only [ricSubscriptionDelete, ← hsub, hsome]
    · simp only [ricSubscriptionDelete, ← hsub, hsome]
      unfold subsGet
      rw [List.find?_map]
      have hcong : ((fun s : Subscription => decide (s.id = subID)) ∘
          fun s : Subscription => if s.id = subID then { s with tickerRunning := false } else s)
          = fun s : Subscription => decide (s.id = subID) := by
        funext s
        by_cases h : s.id = subID <;> simp [h]
      rw [hcong]
      unfold subsGet at hsome
      rw [hsome]
      simp [hid]

/-- C2 witness: the amended theorem applied at a one-element store. -/
theorem ricSubscriptionDelete_spec_witness :
    subsGet [({ id := { ricInstanceID := 1, reqID := 2, ranFuncID := 3 }, tickerRunning := true } : Subscription)]
        { ricInstanceID := 1, reqID := 2, ranFuncID := 3 }
      = some { id := { ricInstanceID := 1, reqID := 2, ranFuncID := 3 }, tickerRunning := true } ∧
    (ricSubscriptionDelete [{ id := { ricInstanceID := 1, reqID := 2, ranFuncID := 3 }, tickerRunning := true }] 2 3 1).2
      = DeleteOutcome.response { ricInstanceID := 1, reqID := 2, ranFuncID := 3 } ∧
    subsGet (ricSubscriptionDelete [{ id := { ricInstanceID := 1, reqID := 2, ranFuncID := 3 }, tickerRunning := true }] 2 3 1).1
        { ricInstanceID := 1, reqID := 2, ranFuncID := 3 }
      = some { id := { ricInstanceID := 1, reqID := 2, ranFuncID := 3 }, tickerRunning := false } := by
  refine ⟨by decide, ?_⟩
  have h := (ricSubscriptionDelete_spec
      [{ id := { ricInstanceID := 1, reqID := 2, ranFuncID := 3 }, tickerRunning := true }] 2 3 1).2
      { id := { ricInstanceID := 1, reqID := 2, ranFuncID := 3 }, tickerRunning := true } (by decide)
  exact h

/-- C4 counterexample: the claimed inclusive upper bound 9999999 is never
drawn; rand.Int63n(maxIMSI - minIMSI) is uniform on [0, maxIMSI - minIMSI),
so the largest producible IMSI is 9999998. -/
theorem genIMSI_never_hits_maxIMSI : ¬ ∃ d, genIMSI d = maxIMSI := by
  rintro ⟨d, hd⟩
  have hlt : d % (maxIMSI - minIMSI) < maxIMSI - minIMSI :=
    Nat.mod_lt d (by decide)
  simp only [genIMSI, minIMSI, maxIMSI] at hd hlt
  omega

/-- C4 as amended: every UE created by the store is given an IMSI in the
half-open range [1000000, 9999999), that is the inclusive range
[1000000, 9999998]; the draw is uniform over it (the draw function is a
bijection from the raw uniform draws onto that range); and a duplicate IMSI
is detected and retried exactly once, the retried iteration consuming
exactly one extra draw and using the second drawn value unconditionally. -/
theorem createUE_imsi_range_single_retry (st : UEStore) (i : Nat) :
    (minIMSI ≤ (createOneUE st i).2.2.imsi ∧ (createOneUE st i).2.2.imsi < maxIMSI) ∧
    ((lookupUE st.ues (genIMSI (st.rand st.pos))).isSome = true →
        (createOneUE st i).2.2.imsi = genIMSI (st.rand (st.pos + 1)) ∧
        (createOneUE st i).1.pos = st.pos + 3) ∧
    ((lookupUE st.ues (genIMSI (st.rand st.pos))).isSome = false →
        (createOneUE st i).2.2.imsi = genIMSI (st.rand st.pos) ∧
        (createOneUE st i).1.pos = st.pos + 2) ∧
    (∀ v, minIMSI ≤ v → v < maxIMSI → ∃ d, d < maxIMSI - minIMSI ∧ genIMSI d = v) ∧
    (∀ d1 d2, d1 < maxIMSI - minIMSI → d2 < maxIMSI - minIMSI →
        genIMSI d1 = genIMSI d2 → d1 = d2) := by
  refine ⟨?_, ?_, ?_, ?_, ?_⟩
  · have hlt : (st.rand st.pos) % (maxIMSI - minIMSI) < maxIMSI - minIMSI :=
      Nat.mod_lt _ (by decide)
    have hlt2 : (st.rand (st.pos + 1)) % (maxIMSI - minIMSI) < maxIMSI - minIMSI :=
      Nat.mod_lt _ (by decide)
    unfold createOneUE
    by_cases h : (lookupUE st.ues (genIMSI (st.rand st.pos))).isSome
    · simp only [genIMSI] at h ⊢
      simp only [h, if_pos]
      simp only [genIMSI, minIMSI, maxIMSI] at hlt2 ⊢
      omega
    · simp only [genIMSI] at h ⊢
      simp only [h, if_neg, Bool.false_eq_true, if_false]
      simp only [genIMSI, minIMSI, maxIMSI] at hlt ⊢
      omega
  · intro h
    unfold createOneUE
    simp only [genIMSI] at h ⊢
    simp [h]
  · intro h
    unfold createOneUE
    simp only [genIMSI] at h ⊢
    simp [h]
  · intro v h1 h2
    refine ⟨v - minIMSI, by omega, ?_⟩
    simp only [genIMSI]
    simp only [minIMSI, maxIMSI] at h1 h2 ⊢
    omega
  · intro d1 d2 h1 h2 he
    simp only [genIMSI, Nat.mod_eq_of_lt h1, Nat.mod_eq_of_lt h2] at he
    omega

/-- Empty UE store over the identity draw stream, used as concrete input. -/
def stId : UEStore :=
  { ues := [], rand := fun d => d, cellSource := fun _ => 0, pos := 0 }

/-- C4 witness: the amended theorem applied to the empty store with the
identity stream; the first draw is fresh, so the created UE gets IMSI
genIMSI 0 = 1000000 and exactly two draws are consumed. -/
theorem createUE_imsi_range_single_retry_witness :
    (minIMSI ≤ (createOneUE stId 0).2.2.imsi ∧ (createOneUE stId 0).2.2.imsi < maxIMSI) ∧
    (createOneUE stId 0).2.2.imsi = genIMSI 0 ∧
    (createOneUE stId 0).1.pos = 2 := by
  have h := createUE_imsi_range_single_retry stId 0
  exact ⟨h.1, h.2.2.1 (by decide)⟩

/-- Map write length: an overwrite keeps the map size, a fresh key grows it
by one. -/
lemma putUE_length (ues : List UE) (ue : UE) :
    (putUE ues ue).length
      = if (lookupUE ues ue.imsi).isSome then ues.length else ues.length + 1 := by
  unfold putUE
  split <;> simp_all

/-- One CreateUEs iteration grows the map by one exactly when the final
write did not overwrite an existing entry. -/
lemma createOneUE_length (st : UEStore) (i : Nat) :
    (createOneUE st i).1.ues.length + (if (createOneUE st i).2.1 then 1 else 0)
      = st.ues.length + 1 := by
  unfold createOneUE
  by_cases h : (lookupUE st.ues (genIMSI (st.rand st.pos))).isSome = true <;>
    simp only [genIMSI] at h ⊢ <;>
    simp only [h, if_pos, Bool.false_eq_true, if_false, if_true] <;>
    rw [putUE_length] <;>
    split <;> simp_all

/-- The CreateUEs loop grows the map by the iteration count minus the number
of effective collisions. -/
lemma createUEsFrom_length (c : Nat) : ∀ (st : UEStore) (s : Nat),
    (createUEsFrom st s c).1.ues.length + (createUEsFrom st s c).2
      = st.ues.length + c := by
  induction c with
  | zero => intro st s; simp [createUEsFrom]
  | succ n ih =>
      intro st s
      have h1 := createOneUE_length st s
      have h2 := ih (createOneUE st s).1 (s + 1)
      simp only [createUEsFrom]
      cases hb : (createOneUE st s).2.1 <;>
        simp only [hb, Bool.false_eq_true, if_false, if_true] at h1 ⊢ <;> omega

/-- Reduction of the Int delta comparison of SetUECount to Nat
comparisons. -/
lemma setUECount_eq (st : UEStore) (n : Nat) :
    setUECount st n =
      if st.ues.length < n then createUEs st (n - st.ues.length)
      else if n < st.ues.length then (removeSomeUEs st (st.ues.length - n), 0)
      else (st, 0) := by
  simp only [setUECount, uesLen]
  split_ifs <;> first | rfl | omega

/-- One SetUECount application lands exactly on the requested count whenever
no effective IMSI collision occurred during it. -/
lemma setUECount_len (st : UEStore) (n : Nat)
    (h : (setUECount st n).2 = 0) : uesLen (setUECount st n).1 = n := by
  have he := setUECount_eq st n
  rcases lt_trichotomy st.ues.length n with hlt | heq | hgt
  · rw [he, if_pos hlt] at h ⊢
    have hc := createUEsFrom_length (n - st.ues.length) st 0
    unfold createUEs at h ⊢
    unfold uesLen
    omega
  · rw [he, if_neg (by omega), if_neg (by omega)]
    simpa [uesLen] using heq
  · rw [he, if_neg (by omega), if_pos hgt]
    simp only [uesLen, removeSomeUEs, List.length_drop]
    omega

/-- Empty UE store over the constant-zero draw stream: every IMSI draw
yields 1000000, so the single-shot duplicate retry also collides and the
second created UE overwrites the first. -/
def stZero : UEStore :=
  { ues := [], rand := fun _ => 0, cellSource := fun _ => 0, pos := 0 }

/-- C5 counterexample: from the empty store with the constant draw stream,
SetUECount(2) applied twice leaves Len() = 1, not 2: within each call the
duplicate IMSI is retried only once, the retry collides again and the write
overwrites the existing UE. -/
theorem setUECount_twice_cex :
    uesLen (setUECount (setUECount stZero 2).1 2).1 = 1 ∧
    uesLen (setUECount (setUECount stZero 2).1 2).1 ≠ 2 := by
  refine ⟨by decide, by decide⟩

/-- C5 as amended: SetUECount(n) applied twice leaves Len() = n provided no
effective IMSI collision occurs in either call (the collision counter of
each call is zero); the single-shot duplicate retry makes the unconditional
claim fail. -/
theorem setUECount_twice (st : UEStore) (n : Nat)
    (_h1 : (setUECount st n).2 = 0)
    (h2 : (setUECount (setUECount st n).1 n).2 = 0) :
    uesLen (setUECount (setUECount st n).1 n).1 = n := by
  exact setUECount_len _ n h2

/-- C5 witness: over the identity draw stream all draws are distinct and
fresh, both calls are collision free and Len() lands on 2. -/
theorem setUECount_twice_witness :
    (setUECount stId 2).2 = 0 ∧
    (setUECount (setUECount stId 2).1 2).2 = 0 ∧
    uesLen (setUECount (setUECount stId 2).1 2).1 = 2 := by
  refine ⟨by decide, by decide, setUECount_twice stId 2 (by decide) (by decide)⟩

/-- Normal form of the classification loop: the accepted list collects the
IDs of the REPORT actions, the not-admitted list pairs the INSERT and POLICY
action IDs with the not-supported cause, both in request order on top of the
initial accumulator. -/
lemma classify_foldl_eq (l : List RicAction) :
    ∀ init : List Int × List (Int × CauseRic),
      l.foldl classifyStep init =
        (init.1 ++ (l.filterMap fun a =>
            if a.actionType = RicActionType.report then some a.id else none),
         init.2 ++ (l.filterMap fun a =>
            if a.actionType = RicActionType.insert ∨ a.actionType = RicActionType.policy
            then some (a.id, CauseRic.ricActionNotSupported) else none)) := by
  induction l with
  | nil => intro init; simp
  | cons a l ih =>
      intro init
      simp only [List.foldl_cons, List.filterMap_cons, ih (classifyStep init a)]
      cases ha : a.actionType <;> simp [classifyStep, ha]

/-- C3: every REPORT action of an incoming KPM RICSubscription request is
accepted, every INSERT or POLICY action lands in the not-admitted list with
cause RIC_ACTION_NOT_SUPPORTED, and when no action was accepted the request
produces a RicSubscriptionFailure and never a subscription response. -/
theorem kpm_subscription_classification (actions : List RicAction)
    (reportPeriod : Except Unit Int) :
    (∀ a ∈ actions, a.actionType = RicActionType.report →
        a.id ∈ (classifyActions actions).1) ∧
    (∀ a ∈ actions,
        a.actionType = RicActionType.insert ∨ a.actionType = RicActionType.policy →
        (a.id, CauseRic.ricActionNotSupported) ∈ (classifyActions actions).2) ∧
    ((classifyActions actions).1 = [] →
        ricSubscription actions reportPeriod
          = SubOutcome.failure (classifyActions actions).1 (classifyActions actions).2 ∧
        ∀ acc na p, ricSubscription actions reportPeriod ≠ SubOutcome.response acc na p) := by
  have hnf := classify_foldl_eq actions ([], [])
  refine ⟨?_, ?_, ?_⟩
  · intro a ha hrep
    simp only [classifyActions, hnf, List.nil_append]
    exact List.mem_filterMap.mpr ⟨a, ha, by simp [hrep]⟩
  · intro a ha hia
    simp only [classifyActions, hnf, List.nil_append]
    exact List.mem_filterMap.mpr ⟨a, ha, by simp [hia]⟩
  · intro hempty
    constructor
    · simp only [ricSubscription, hempty, if_pos]
    · intro acc na p
      simp only [ricSubscription, hempty, if_pos]
      exact fun hcon => SubOutcome.noConfusion hcon

/-- C3 witness: a request carrying one REPORT, one INSERT and one POLICY
action, and an INSERT-only request that is refused with a failure PDU. -/
theorem kpm_subscription_classification_witness :
    ((1 : Int) ∈ (classifyActions
        [{ id := 1, actionType := RicActionType.report },
         { id := 2, actionType := RicActionType.insert },
         { id := 3, actionType := RicActionType.policy }]).1) ∧
    (((2 : Int), CauseRic.ricActionNotSupported) ∈ (classifyActions
        [{ id := 1, actionType := RicActionType.report },
         { id := 2, actionType := RicActionType.insert },
         { id := 3, actionType := RicActionType.policy }]).2) ∧
    ricSubscription [{ id := 2, actionType := RicActionType.insert }] (Except.ok 1000)
      = SubOutcome.failure [] [(2, CauseRic.ricActionNotSupported)] := by
  have h1 := kpm_subscription_classification
      [{ id := 1, actionType := RicActionType.report },
       { id := 2, actionType := RicActionType.insert },
       { id := 3, actionType := RicActionType.policy }] (Except.ok 1000)
  have h2 := kpm_subscription_classification
      [{ id := 2, actionType := RicActionType.insert }] (Except.ok 1000)
  refine ⟨h1.1 { id := 1, actionType := RicActionType.report } (by simp) rfl,
    h1.2.1 { id := 2, actionType := RicActionType.insert } (by simp) (Or.inl rfl), ?_⟩
  have h3 := (h2.2.2 (by decide)).1
  rw [h3]
  decide

/-- Folding record appends equals mapping over the table. -/
lemma foldl_append_map {α β : Type} (f : α → β) (l : List α) :
    ∀ init : List β, l.foldl (fun r n => r ++ [f n]) init = init ++ l.map f := by
  induction l with
  | nil => intro init; simp
  | cons a l ih => intro init; simp [ih]

/-- Inner scan of the requested-records loop: one record is appended per
table entry equal to the declared name. -/
lemma requested_inner_scan (u : Nat) (d : String) (mt : List String) :
    ∀ init : List MeasRecordItem,
      mt.foldl (fun rec2 tName =>
          if tName = d then rec2 ++ [measRecordFor u tName] else rec2) init
        = init ++ List.replicate (mt.count d) (measRecordFor u d) := by
  induction mt with
  | nil => intro init; simp
  | cons t ts ih =>
      intro init
      by_cases h : t = d
      · subst h
        simp [ih, List.count_cons, List.replicate_succ, List.append_assoc]
      · simp only [List.foldl_cons, if_neg h, ih, List.count_cons]
        have hb : (d == t) = false := by
          simp [Ne.symm h]
        simp [hb, h]

/-- Outer loop of the requested-records construction. -/
lemma requested_records_eq (u : Nat) (mt : List String) (declared : List String) :
    createRequestedMeasRecord mt u declared
      = (declared.map fun d => List.replicate (mt.count d) (measRecordFor u d)).flatten := by
  suffices h : ∀ init : List MeasRecordItem,
      declared.foldl (fun rec dName =>
          mt.foldl (fun rec2 tName =>
            if tName = dName then rec2 ++ [measRecordFor u tName] else rec2) rec) init
        = init ++ (declared.map fun d => List.replicate (mt.count d) (measRecordFor u d)).flatten by
    simpa [createRequestedMeasRecord] using h []
  induction declared with
  | nil => intro init; simp
  | cons d ds ih =>
      intro init
      simp [requested_inner_scan u d mt init, ih, List.append_assoc]

/-- C7 as amended: in the default (no action definition) path every entry of
the supported measurement table yields one record, RRC.Conn.Max and
RRC.Conn.Avg as the integer UE count of the store and any other name as a
NoValue record; in the action-defined path each declared measurement name
yields one such record per matching entry of the supported table, so a
declared name absent from the table yields no record at all rather than a
NoValue record. -/
theorem kpm_format1_measurement_records (measTypes : List String) (st : UEStore)
    (declared : List String) (cellECGI : Nat) :
    createMeasDefaultData measTypes (uesLen st)
      = measTypes.map (measRecordFor (uesLen st)) ∧
    createIndicationMessageFormat1 measTypes (uesLen st) cellECGI []
      = some (createDefaultIndMsgFormat1 measTypes (uesLen st) cellECGI) ∧
    createRequestedMeasRecord measTypes (uesLen st) declared
      = (declared.map fun d =>
          List.replicate (measTypes.count d) (measRecordFor (uesLen st) d)).flatten ∧
    (∀ name, measRecordFor (uesLen st) name
      = if name = RRCConnMax ∨ name = RRCConnAvg
        then MeasRecordItem.integer (uesLen st) else MeasRecordItem.noValue) := by
  refine ⟨?_, ?_, requested_records_eq (uesLen st) measTypes declared, ?_⟩
  · simpa [createMeasDefaultData] using foldl_append_map (measRecordFor (uesLen st)) measTypes []
  · simp [createIndicationMessageFormat1]
  · intro name
    unfold measRecordFor
    by_cases h1 : name = RRCConnMax
    · simp [h1]
    · by_cases h2 : name = RRCConnAvg <;> simp [h1, h2]

/-- C7 counterexample: an action definition declaring the unsupported
measurement name X.Unsupported for the matching cell produces a format-1
message whose record list is empty, while the claim demands one NoValue
record per declared type. -/
theorem kpm_requested_record_missing_cex :
    ∃ msg, createIndicationMessageFormat1 [RRCConnMax, RRCConnAvg] 0 5
        [{ cellObjID := "5", measNames := ["X.Unsupported"], subID := 7, granularity := 21 }]
      = some msg ∧
      msg.measData = [] ∧
      msg.measData ≠ msg.measInfoList.map (measRecordFor 0) := by
  refine ⟨{ cellObjID := "5", granularity := 21, subscriptionID := 7,
            measData := [], measInfoList := ["X.Unsupported"] }, by decide, by decide, by decide⟩

/-- The neighbor walk never grows a list beyond maxNeighbors: an append is
guarded by the running length being strictly below the cap. -/
lemma addNbrStep_fold_length (isNbr : HexCell → HexCell → Bool) (maxN : Int)
    (cell : HexCell) (others : List HexCell) :
    ∀ acc : List Nat, (acc.length : Int) ≤ maxN →
      (((others.foldl (addNbrStep isNbr maxN cell) acc).length : Int)) ≤ maxN := by
  induction others with
  | nil => intro acc h; simpa using h
  | cons o os ih =>
      intro acc h
      simp only [List.foldl_cons]
      apply ih
      unfold addNbrStep
      split
      · next hcond => simp; omega
      · exact h

/-- The neighbor walk never appends the ECGI of the cell itself: the guard
requires a distinct ECGI. -/
lemma addNbrStep_fold_not_self (isNbr : HexCell → HexCell → Bool) (maxN : Int)
    (cell : HexCell) (others : List HexCell) :
    ∀ acc : List Nat, cell.ecgi ∉ acc →
      cell.ecgi ∉ others.foldl (addNbrStep isNbr maxN cell) acc := by
  induction others with
  | nil => intro acc h; simpa using h
  | cons o os ih =>
      intro acc h
      simp only [List.foldl_cons]
      apply ih
      unfold addNbrStep
      split
      · next hcond =>
          simp only [List.mem_append, List.mem_singleton]
          rintro (hmem | heq)
          · exact h hmem
          · exact hcond.1 heq
      · exact h

/-- Elements produced for ok results of an Except mapM over lists satisfy
any property the per-element function guarantees. -/
lemma mapM_ok_forall {α β E : Type} (f : α → Except E (List β)) (P : β → Prop)
    (hf : ∀ a l, f a = Except.ok l → ∀ c ∈ l, P c) :
    ∀ (xs : List α) (ls : List (List β)), xs.mapM f = Except.ok ls →
      ∀ c ∈ ls.flatten, P c := by
  intro xs
  induction xs with
  | nil =>
      intro ls h c hcmem
      simp only [List.mapM_nil] at h
      cases h
      simp at hcmem
  | cons x xs ih =>
      intro ls h c hcmem
      rw [List.mapM_cons] at h
      cases hfx : f x with
      | error e => rw [hfx] at h; simp [Bind.bind, Except.bind] at h
      | ok l =>
          rw [hfx] at h
          cases hms : xs.mapM f with
          | error e =>
              rw [hms] at h
              simp [Bind.bind, Except.bind] at h
          | ok ls2 =>
              rw [hms] at h
              simp only [Bind.bind, Except.bind, pure, Except.pure, Except.ok.injEq] at h
              subst h
              simp only [List.flatten_cons, List.mem_append] at hcmem
              rcases hcmem with hm1 | hm2
              · exact hf x l hfx c hm1
              · exact ih ls2 hms c hm2

/-- Every raw cell leaves the tower loop with an empty neighbor list. -/
lemma towerCells_neighbors_nil (plmnID enbStart sectorsPerTower : Nat)
    (singleNode : Bool) (t : Nat) :
    ∀ c ∈ towerCells plmnID enbStart sectorsPerTower singleNode t,
      c.neighbors = [] := by
  intro c hc
  simp only [towerCells, List.mem_map] at hc
  obtain ⟨s, _, rfl⟩ := hc
  rfl

/-- Raw cell inventories returned by the tower loop consist of cells with
empty neighbor lists. -/
lemma generateCellsRaw_neighbors_nil (numTowers sectorsPerTower plmnID enbStart : Nat)
    (singleNode : Bool) (raw : List HexCell)
    (hok : generateCellsRaw numTowers sectorsPerTower plmnID enbStart singleNode
      = Except.ok raw) :
    ∀ c ∈ raw, c.neighbors = [] := by
  unfold generateCellsRaw at hok
  cases hm : (List.range numTowers).mapM (fun t =>
      match (hexMesh numTowers)[t]? with
      | none => Except.error GenError.indexOutOfRange
      | some _ =>
          Except.ok (towerCells plmnID enbStart sectorsPerTower singleNode t)) with
  | error e =>
      rw [hm] at hok
      simp [Bind.bind, Except.bind] at hok
  | ok ls =>
      rw [hm] at hok
      simp only [Bind.bind, Except.bind, pure, Except.pure, Except.ok.injEq] at hok
      subst hok
      refine mapM_ok_forall _ (fun c => c.neighbors = []) ?_ (List.range numTowers) ls hm
      intro a l hl c hc
      cases hp : (hexMesh numTowers)[a]? with
      | none => rw [hp] at hl; cases hl
      | some u =>
          rw [hp] at hl
          cases hl
          exact towerCells_neighbors_nil plmnID enbStart sectorsPerTower singleNode a c hc

/-- C6: every cell of a model produced by GenerateHoneycombTopology has at
most maxNeighbors neighbors and never lists its own ECGI among them; this
holds for any neighbor predicate, in particular the Haversine geometry of
isNeighbor. -/
theorem honeycomb_neighbor_invariant (numTowers sectorsPerTower plmnID enbStart : Nat)
    (maxNeighbors : Int) (isNbr : HexCell → HexCell → Bool) (singleNode : Bool)
    (hmax : 0 ≤ maxNeighbors) (cells : List HexCell)
    (hok : generateHoneycombTopology numTowers sectorsPerTower plmnID enbStart
        maxNeighbors isNbr singleNode = Except.ok cells)
    (c : HexCell) (hc : c ∈ cells) :
    (c.neighbors.length : Int) ≤ maxNeighbors ∧ c.ecgi ∉ c.neighbors := by
  unfold generateHoneycombTopology at hok
  cases hraw : generateCellsRaw numTowers sectorsPerTower plmnID enbStart singleNode with
  | error e =>
      rw [hraw] at hok
      simp [Bind.bind, Except.bind] at hok
  | ok raw =>
      rw [hraw] at hok
      simp only [Bind.bind, Except.bind, pure, Except.pure, Except.ok.injEq] at hok
      subst hok
      simp only [addNeighbors, List.mem_map] at hc
      obtain ⟨cell, hcellmem, rfl⟩ := hc
      have hnil : cell.neighbors = [] :=
        generateCellsRaw_neighbors_nil numTowers sectorsPerTower plmnID enbStart
          singleNode raw hraw cell hcellmem
      rw [hnil]
      constructor
      · exact addNbrStep_fold_length isNbr maxNeighbors cell raw [] (by simpa using hmax)
      · exact addNbrStep_fold_not_self isNbr maxNeighbors cell raw [] (by simp)

/-- Concrete single-tower single-sector cell produced by the generator, used
by the C6 witness. -/
def hexCellW : HexCell :=
  { ecgi := 268435713, azimuth := 0, arc := 360, neighbors := [] }

/-- C6 witness: the invariant applied to the one-tower, one-sector topology
with maxNeighbors 6 and the always-true neighbor predicate. -/
theorem honeycomb_neighbor_invariant_witness :
    (0 : Int) ≤ 6 ∧
    ((hexCellW.neighbors.length : Int) ≤ 6 ∧ hexCellW.ecgi ∉ hexCellW.neighbors) := by
  refine ⟨by decide, ?_⟩
  exact honeycomb_neighbor_invariant 1 1 1 0 6 (fun _ _ => true) false (by decide)
    [hexCellW] (by rfl) hexCellW (by simp)

/-- Contribution of a single UE to the emissions of one cell (proof normal
form of mhoEmitUE). -/
def mhoEmitOne (ncgi : Nat) (ue : UE) : List MhoEmission :=
  if ue.rrcState = RrcStatus.idle then []
  else
    match mhoCreateIndicationMsgFormat1 ue with
    | none => []
    | some msg => [{ ncgi := ncgi, imsi := ue.imsi, msg := msg }]

/-- The UE loop appends the per-UE contributions in order. -/
lemma mhoEmitUE_foldl (ncgi : Nat) (l : List UE) :
    ∀ init : List MhoEmission,
      l.foldl (mhoEmitUE ncgi) init = init ++ (l.map (mhoEmitOne ncgi)).flatten := by
  induction l with
  | nil => intro init; simp
  | cons u l ih =>
      intro init
      simp only [List.foldl_cons, ih, List.map_cons, List.flatten_cons, ← List.append_assoc]
      congr 1
      unfold mhoEmitUE mhoEmitOne
      split
      · simp
      · split <;> simp

/-- The cell loop appends the per-cell emission blocks in order. -/
lemma mhoSend_eq (nodeCells : List Nat) (ues : List UE) :
    mhoSendRicIndication nodeCells ues
      = (nodeCells.map fun ncgi =>
          ((listUEs ues ncgi).map (mhoEmitOne ncgi)).flatten).flatten := by
  suffices h : ∀ init : List MhoEmission,
      nodeCells.foldl (mhoEmitCell ues) init
        = init ++ (nodeCells.map fun ncgi =>
            ((listUEs ues ncgi).map (mhoEmitOne ncgi)).flatten).flatten by
    simpa [mhoSendRicIndication] using h []
  induction nodeCells with
  | nil => intro init; simp
  | cons c cs ih =>
      intro init
      simp only [List.foldl_cons, mhoEmitCell, mhoEmitUE_foldl, ih, List.map_cons,
        List.flatten_cons, List.append_assoc]

/-- Filtering distributes over flattening. -/
lemma filter_flatten {α : Type} (p : α → Bool) (L : List (List α)) :
    L.flatten.filter p = (L.map (List.filter p)).flatten := by
  induction L with
  | nil => rfl
  | cons l ls ih => simp [List.filter_append, ih]

/-- Flattening a family that vanishes everywhere except at one element of a
duplicate-free index list yields exactly that contribution. -/
lemma flatten_single {α β : Type} (g : α → List β) :
    ∀ (l : List α), l.Nodup → ∀ a ∈ l, (∀ b ∈ l, b ≠ a → g b = []) →
      (l.map g).flatten = g a := by
  intro l
  induction l with
  | nil => intro _ a ha; cases ha
  | cons x xs ih =>
      intro hnd a ha hg
      simp only [List.nodup_cons] at hnd
      rcases List.mem_cons.mp ha with hax | hax
      · subst hax
        have hxs : ∀ b ∈ xs, g b = [] := by
          intro b hb
          exact hg b (List.mem_cons_of_mem _ hb) (fun he => hnd.1 (he ▸ hb))
        have : (xs.map g).flatten = [] := by
          apply List.flatten_eq_nil_iff.mpr
          intro m hm
          rcases List.mem_map.mp hm with ⟨b, hb, rfl⟩
          exact hxs b hb
        simp [this]
      · have hx : g x = [] := by
          apply hg x (List.mem_cons_self x xs)
          intro he
          exact hnd.1 (he ▸ hax)
        simp only [List.map_cons, List.flatten_cons, hx, List.nil_append]
        exact ih hnd.2 a hax (fun b hb hne => hg b (List.mem_cons_of_mem _ hb) hne)

/-- A UE sharing the IMSI of ue in a store whose IMSI column is
duplicate-free is ue itself. -/
lemma imsi_injective (ues : List UE) (hik : (ues.map UE.imsi).Nodup)
    (ue u : UE) (hue : ue ∈ ues) (hu : u ∈ ues) (h : u.imsi = ue.imsi) : u = ue :=
  List.inj_on_of_nodup_map hik hu hue h

/-- Emissions of a UE other than ue never carry the IMSI of ue. -/
lemma mhoEmitOne_other (ncgi : Nat) (ue u : UE) (h : u.imsi ≠ ue.imsi) :
    (mhoEmitOne ncgi u).filter (fun e => e.imsi == ue.imsi) = [] := by
  unfold mhoEmitOne
  split
  · rfl
  · split
    · rfl
    · simp only [List.filter]
      have hb : (u.imsi == ue.imsi) = false := by
        simpa using h
      simp [hb]

/-- C8: with duplicate-free node cells and store IMSIs, a non-IDLE UE served
by one of the node cells is reported by exactly one format-1 emission per
tick, whose measurement list has the serving cell first (RSRP the stored
serving strength) followed by the ranked candidate list; a UE with an empty
candidate list produces no emission at all while the loop continues with the
other UEs (whose emissions this theorem also pins down, one instance each). -/
theorem mho_format1_per_ue (nodeCells : List Nat) (ues : List UE)
    (hnd : nodeCells.Nodup) (hik : (ues.map UE.imsi).Nodup)
    (ue : UE) (hmem : ue ∈ ues) (hni : ue.rrcState ≠ RrcStatus.idle)
    (hserv : ue.cell.ecgi ∈ nodeCells) :
    (mhoSendRicIndication nodeCells ues).filter (fun e => e.imsi == ue.imsi)
      = if ue.cells = [] then []
        else
          [{ ncgi := ue.cell.ecgi, imsi := ue.imsi,
             msg := { ueID := toString ue.imsi,
                      measReport :=
                        { nci := getNCI ue.cell.ecgi, rsrp := ue.cell.strength } ::
                          ue.cells.map (fun c =>
                            { nci := getNCI c.ecgi, rsrp := c.strength }) } }] := by
  have hp : ∀ ncgi u, u ∈ listUEs ues ncgi → u.imsi = ue.imsi → u = ue := by
    intro ncgi u hu he
    exact imsi_injective ues hik ue u hmem (List.mem_of_mem_filter hu) he
  rw [mhoSend_eq, filter_flatten]
  have hcell : ∀ ncgi, ncgi ≠ ue.cell.ecgi →
      (((listUEs ues ncgi).map (mhoEmitOne ncgi)).flatten.filter
        (fun e => e.imsi == ue.imsi)) = [] := by
    intro ncgi hne
    rw [filter_flatten]
    apply List.flatten_eq_nil_iff.mpr
    intro m hm
    rcases List.mem_map.mp hm with ⟨fl, hfl, rfl⟩
    rcases List.mem_map.mp hfl with ⟨u, hu, rfl⟩
    apply mhoEmitOne_other
    intro he
    have hcol : u.cell.ecgi = ncgi := by
      simpa [listUEs] using (List.mem_filter.mp hu).2
    have huue := hp ncgi u hu he
    subst huue
    exact hne hcol.symm
  rw [List.map_map]
  have hser := flatten_single
      ((List.filter (fun e : MhoEmission => e.imsi == ue.imsi)) ∘
        fun ncgi => ((listUEs ues ncgi).map (mhoEmitOne ncgi)).flatten)
      nodeCells hnd ue.cell.ecgi hserv
      (fun b _hb hne => hcell b hne)
  rw [hser]
  simp only [Function.comp]
  rw [filter_flatten, List.map_map]
  have hlnd : (listUEs ues ue.cell.ecgi).Nodup := by
    apply List.Nodup.of_map UE.imsi
    exact List.Nodup.sublist (List.Sublist.map UE.imsi (List.filter_sublist ues)) hik
  have hueserv : ue ∈ listUEs ues ue.cell.ecgi := by
    simp [listUEs, hmem]
  have hinner := flatten_single
      ((List.filter (fun e : MhoEmission => e.imsi == ue.imsi)) ∘ mhoEmitOne ue.cell.ecgi)
      (listUEs ues ue.cell.ecgi) hlnd ue hueserv
      (fun u hu hne => by
        apply mhoEmitOne_other
        intro he
        exact hne (hp ue.cell.ecgi u hu he))
  rw [hinner]
  simp only [Function.comp]
  by_cases hcells : ue.cells = []
  · simp [mhoEmitOne, mhoCreateIndicationMsgFormat1, hni, hcells]
  · simp [mhoEmitOne, mhoCreateIndicationMsgFormat1, hni, hcells, List.filter]

/-- Connected UE with one candidate cell, served by cell 10 (C8 witness
data). -/
def ueW1 : UE :=
  { imsi := 2000001, ueType := "phone", lat := 0, lng := 0, heading := 0,
    cell := { id := 10, ecgi := 10, strength := 50 }, crnti := 1,
    cells := [{ id := 11, ecgi := 11, strength := 40 }],
    isAdmitted := false, rrcState := RrcStatus.connected }

/-- Connected UE with an empty candidate list, served by cell 10 (C8 witness
data). -/
def ueW2 : UE :=
  { imsi := 2000002, ueType := "phone", lat := 0, lng := 0, heading := 0,
    cell := { id := 10, ecgi := 10, strength := 30 }, crnti := 2,
    cells := [], isAdmitted := false, rrcState := RrcStatus.connected }

/-- C8 witness: on a node with cells 10 and 20, the UE with a candidate produces
exactly one emission with the serving cell first, and the UE with the empty
candidate list produces none while the other emission still happens. -/
theorem mho_format1_per_ue_witness :
    (mhoSendRicIndication [10, 20] [ueW1, ueW2]).filter
        (fun e => e.imsi == ueW1.imsi)
      = [{ ncgi := 10, imsi := 2000001,
           msg := { ueID := "2000001",
                    measReport := [{ nci := 10, rsrp := 50 },
                                   { nci := 11, rsrp := 40 }] } }] ∧
    (mhoSendRicIndication [10, 20] [ueW1, ueW2]).filter
        (fun e => e.imsi == ueW2.imsi)
      = [] := by
  have h1 := mho_format1_per_ue [10, 20] [ueW1, ueW2] (by decide) (by decide)
      ueW1 (by simp) (by decide) (by decide)
  have h2 := mho_format1_per_ue [10, 20] [ueW1, ueW2] (by decide) (by decide)
      ueW2 (by simp) (by decide) (by decide)
  rw [h1] at *
  rw [h2]
  refine ⟨by decide, by decide⟩

/-- C9: the per-tick RRC update applies no transition without a flip or for
an unknown IMSI; on a flip IDLE goes to CONNECTED and CONNECTED goes to
IDLE, each publishing the updated UE snapshot on RrcUpdateChan, while any
other observed state is left unchanged and publishes nothing; and every UE
in the resulting store is either an original UE or a legal flip of one. -/
theorem rrc_update_transitions (ues : List UE) (imsi : Nat) (flip : Bool) :
    (updateRrc ues imsi false = (ues, none)) ∧
    (lookupUE ues imsi = none → updateRrc ues imsi flip = (ues, none)) ∧
    (∀ ue, lookupUE ues imsi = some ue →
      (ue.rrcState = RrcStatus.inactive → updateRrc ues imsi true = (ues, none)) ∧
      (ue.rrcState = RrcStatus.idle →
        updateRrc ues imsi true
          = (updateStoredUE ues imsi { ue with rrcState := RrcStatus.connected },
             some { ue with rrcState := RrcStatus.connected })) ∧
      (ue.rrcState = RrcStatus.connected →
        updateRrc ues imsi true
          = (updateStoredUE ues imsi { ue with rrcState := RrcStatus.idle },
             some { ue with rrcState := RrcStatus.idle }))) ∧
    (∀ u2 ∈ (updateRrc ues imsi flip).1,
      u2 ∈ ues ∨
      (∃ u ∈ ues,
        (u.rrcState = RrcStatus.idle ∧ u2 = { u with rrcState := RrcStatus.connected }) ∨
        (u.rrcState = RrcStatus.connected ∧ u2 = { u with rrcState := RrcStatus.idle }))) := by
  refine ⟨by simp [updateRrc], ?_, ?_, ?_⟩
  · intro hnone
    cases flip <;> simp [updateRrc, hnone]
  · intro ue hue
    refine ⟨?_, ?_, ?_⟩ <;> intro hst <;> simp [updateRrc, hue, hst]
  · intro u2 hu2
    cases flip with
    | false =>
        simp only [updateRrc, if_neg Bool.false_ne_true] at hu2
        exact Or.inl hu2
    | true =>
        cases hue : lookupUE ues imsi with
        | none =>
            simp only [updateRrc, if_pos, hue] at hu2
            exact Or.inl hu2
        | some ue =>
            have huemem : ue ∈ ues := List.mem_of_find?_eq_some hue
            cases hst : ue.rrcState with
            | inactive =>
                simp only [updateRrc, if_pos, hue, hst] at hu2
                exact Or.inl hu2
            | idle =>
                simp only [updateRrc, if_pos, hue, hst, updateStoredUE] at hu2
                rcases List.mem_map.mp hu2 with ⟨u, hu, rfl⟩
                by_cases hcase : u.imsi = imsi
                · rw [if_pos hcase]
                  exact Or.inr ⟨ue, huemem, Or.inl ⟨hst, rfl⟩⟩
                · rw [if_neg hcase]
                  exact Or.inl hu
            | connected =>
                simp only [updateRrc, if_pos, hue, hst, updateStoredUE] at hu2
                rcases List.mem_map.mp hu2 with ⟨u, hu, rfl⟩
                by_cases hcase : u.imsi = imsi
                · rw [if_pos hcase]
                  exact Or.inr ⟨ue, huemem, Or.inr ⟨hst, rfl⟩⟩
                · rw [if_neg hcase]
                  exact Or.inl hu

/-- Idle UE used by the C9 witness. -/
def ueW3 : UE :=
  { imsi := 3000003, ueType := "phone", lat := 0, lng := 0, heading := 0,
    cell := { id := 10, ecgi := 10, strength := 20 }, crnti := 3,
    cells := [], isAdmitted := false, rrcState := RrcStatus.idle }

/-- C9 witness: a flip of the idle UE lands in CONNECTED and publishes the
snapshot; no flip leaves the store untouched. -/
theorem rrc_update_transitions_witness :
    updateRrc [ueW3] 3000003 true
      = ([{ ueW3 with rrcState := RrcStatus.connected }],
         some { ueW3 with rrcState := RrcStatus.connected }) ∧
    updateRrc [ueW3] 3000003 false = ([ueW3], none) := by
  have h := rrc_update_transitions [ueW3] 3000003 true
  have h2 := (h.2.2.1 ueW3 (by decide)).2.1 rfl
  rw [h2]
  refine ⟨by decide, by decide⟩

/-- C10: MoveToCell of a present IMSI rewrites only the serving-cell ECGI
and strength of that UE and emits exactly one Updated event carrying the
updated UE; its location, heading, CRNTI, type, candidate list, admission
flag and RRC state are untouched, every other UE is untouched, the store
size is unchanged, and an absent IMSI yields NotFound with no mutation and
no event. -/
theorem moveToCell_frame (ues : List UE) (imsi ecgi : Nat) (strength : Int) :
    (lookupUE ues imsi = none →
      moveToCell ues imsi ecgi strength = (ues, [], some StoreError.notFound)) ∧
    (∀ ue, lookupUE ues imsi = some ue →
      (moveToCell ues imsi ecgi strength).2.2 = none ∧
      (moveToCell ues imsi ecgi strength).2.1
        = [{ key := ue.imsi,
             value := { ue with cell := { ue.cell with ecgi := ecgi, strength := strength } },
             eventType := EventType.updated }] ∧
      (moveToCell ues imsi ecgi strength).1.length = ues.length ∧
      (∀ u ∈ ues, u.imsi ≠ imsi → u ∈ (moveToCell ues imsi ecgi strength).1) ∧
      (∀ u2 ∈ (moveToCell ues imsi ecgi strength).1, ∃ u ∈ ues,
        u2.imsi = u.imsi ∧ u2.ueType = u.ueType ∧ u2.lat = u.lat ∧ u2.lng = u.lng ∧
        u2.heading = u.heading ∧ u2.crnti = u.crnti ∧ u2.cells = u.cells ∧
        u2.isAdmitted = u.isAdmitted ∧ u2.rrcState = u.rrcState ∧
        u2.cell.id = u.cell.id ∧
        (u.imsi ≠ imsi → u2 = u) ∧
        (u.imsi = imsi → u2.cell.ecgi = ecgi ∧ u2.cell.strength = strength))) := by
  constructor
  · intro hnone
    simp [moveToCell, hnone]
  · intro ue hue
    refine ⟨by simp [moveToCell, hue], by simp [moveToCell, hue], ?_, ?_, ?_⟩
    · simp [moveToCell, hue]
    · intro u hu hne
      simp only [moveToCell, hue]
      refine List.mem_map.mpr ⟨u, hu, ?_⟩
      rw [if_neg hne]
    · intro u2 hu2
      simp only [moveToCell, hue] at hu2
      rcases List.mem_map.mp hu2 with ⟨u, hu, rfl⟩
      refine ⟨u, hu, ?_⟩
      by_cases hcase : u.imsi = imsi
      · rw [if_pos hcase]
        exact ⟨rfl, rfl, rfl, rfl, rfl, rfl, rfl, rfl, rfl, rfl,
          fun hne => absurd hcase hne, fun _ => ⟨rfl, rfl⟩⟩
      · rw [if_neg hcase]
        exact ⟨rfl, rfl, rfl, rfl, rfl, rfl, rfl, rfl, rfl, rfl,
          fun _ => rfl, fun he => absurd he hcase⟩

/-- C10 witness: moving the first of two UEs rewrites only its serving cell,
emits one Updated event and leaves the second UE untouched; a move of an
absent IMSI returns NotFound and mutates nothing. -/
theorem moveToCell_frame_witness :
    moveToCell [ueW1, ueW2] 2000001 77 (-5)
      = ([{ ueW1 with cell := { id := 10, ecgi := 77, strength := -5 } }, ueW2],
         [{ key := 2000001,
            value := { ueW1 with cell := { id := 10, ecgi := 77, strength := -5 } },
            eventType := EventType.updated }],
         none) ∧
    moveToCell [ueW1, ueW2] 4000004 77 (-5)
      = ([ueW1, ueW2], [], some StoreError.notFound) := by
  have h := (moveToCell_frame [ueW1, ueW2] 2000001 77 (-5)).2 ueW1 (by decide)
  have habs := (moveToCell_frame [ueW1, ueW2] 4000004 77 (-5)).1 (by decide)
  exact ⟨by decide, habs⟩

end RanSim
